import Mathlib

/-!
Shallow embedding of `src/scripts/music_info.py`: three request/response
operations over remote music-metadata APIs.

The network is modelled by oracle functions passed as arguments: a remote
client maps a request (the query parameters the Python code builds) to the
decoded JSON response.  Loosely structured JSON payloads are modelled by
structures with `Option` fields for the keys the Python code accesses
defensively (`in` tests, `dict.get` with defaults); keys the code accesses
unconditionally (`data["track"]["name"]`, `track['album']['name']`, ...)
are plain fields.  Python `ValueError` is modelled by `Except` with an
`invalidArgument` error.
-/

namespace MusicInfo

/-- One entry of a Last.fm tag list: a JSON object with a `name` field
(the code reads `tag["name"]`). -/
structure TagEntry where
  name : String
deriving Repr, DecidableEq

/-- The `toptags` object of a Last.fm response; its `tag` key is accessed
defensively (`.get("tag", [])` / `"tag" in data["toptags"]`), hence `Option`. -/
structure TopTags where
  tag : Option (List TagEntry)
deriving Repr, DecidableEq

/-- The `track` object of a `track.getInfo` response: `data["track"]["name"]`
is read unconditionally, `toptags` via `.get("toptags", {})`. -/
structure TrackPayload where
  name : String
  toptags : Option TopTags
deriving Repr, DecidableEq

/-- Decoded JSON of a `track.getInfo` call; the code tests `"track" not in data`. -/
structure TrackInfoResponse where
  track : Option TrackPayload
deriving Repr, DecidableEq

/-- Decoded JSON of an `artist.getTopTags` call; the code tests
`"toptags" in data and "tag" in data["toptags"]`. -/
structure ArtistTopTagsResponse where
  toptags : Option TopTags
deriving Repr, DecidableEq

/-- The `album` object nested in a Spotify track record; `get_album_info`
reads `album_type`, `name` and `release_date` unconditionally. -/
structure SpotifyAlbum where
  album_type : String
  name : String
  release_date : String
deriving Repr, DecidableEq

/-- A Spotify track record as returned by `sp.track(track_id)`. -/
structure SpotifyTrack where
  name : String
  album : SpotifyAlbum
deriving Repr, DecidableEq

/-- Errors raised by the operations: Python `raise ValueError(msg)`. -/
inductive MusicError where
  | invalidArgument (msg : String)
deriving Repr, DecidableEq

/-- The dict returned by `get_album_info`. -/
structure AlbumInfo where
  track_name : String
  album_type : String
  album_name : String
  release_date : String
deriving Repr, DecidableEq

/-- The dict returned by `get_track_genres`: either the not-found shape
`{"error": ..., "genres": []}` or the success shape
`{"track": ..., "artist": ..., "genres": ...}`. -/
inductive TrackGenres where
  | notFound (error : String) (genres : List String)
  | found (track : String) (artist : String) (genres : List String)
deriving Repr, DecidableEq

/-- The dict returned by `get_artist_genres`. -/
structure ArtistGenres where
  artists : List String
  genres : List String
deriving Repr, DecidableEq

/-- The query-parameter dict built by `get_track_genres` for the
`track.getInfo` endpoint. -/
structure LastfmTrackParams where
  method : String
  api_key : String
  artist : String
  track : String
  format : String
deriving Repr, DecidableEq

/-! ### `get_album_info` -/

/-- `get_album_info(track_id)`: `sp_track` models the Spotify client call
`sp.track`.  Python `if not track_id` is the empty-string test. -/
def get_album_info (sp_track : String → SpotifyTrack) (track_id : String) :
    Except MusicError AlbumInfo :=
  if track_id = "" then
    .error (.invalidArgument "A valid Spotify track ID must be provided.")
  else
    let track := sp_track track_id
    let album := track.album
    .ok { track_name := track.name
          album_type := album.album_type
          album_name := album.name
          release_date := album.release_date }

/-! ### `get_track_genres` -/

/-- The params dict of lines 70-76 of the source. -/
def track_info_params (api_key track_name artist_name : String) : LastfmTrackParams :=
  { method := "track.getInfo"
    api_key := api_key
    artist := artist_name
    track := track_name
    format := "json" }

/-- `data["track"].get("toptags", {}).get("tag", [])`. -/
def trackTags (track : TrackPayload) : List TagEntry :=
  match track.toptags with
  | some toptags =>
    match toptags.tag with
    | some tags => tags
    | none => []
  | none => []

/-- `get_track_genres(track_name, *artists, limit=5)`: `remote` models
`requests.get(BASE_URL, params=params).json()` for the track endpoint. -/
def get_track_genres (remote : LastfmTrackParams → TrackInfoResponse)
    (api_key track_name : String) (artists : List String) (limit : Nat) :
    Except MusicError TrackGenres :=
  match artists with
  | [] => .error (.invalidArgument "At least one artist name must be provided.")
  | artist_name :: _ =>
    let params := track_info_params api_key track_name artist_name
    let data := remote params
    match data.track with
    | none => .ok (.notFound "Track not found" [])
    | some track =>
      let tags := trackTags track
      let genres := (tags.take limit).map TagEntry.name
      .ok (.found track.name artist_name genres)

/-- The `track.getInfo` query that a `get_track_genres` call issues
(`none` when the call raises before reaching the network). -/
def track_query (api_key track_name : String) (artists : List String) :
    Option LastfmTrackParams :=
  match artists with
  | [] => none
  | artist_name :: _ => some (track_info_params api_key track_name artist_name)

/-- `true` iff an operation outcome is a raised `ValueError` (InvalidArgument). -/
def isInvalidArgument {α : Type} : Except MusicError α → Bool
  | .error (.invalidArgument _) => true
  | .ok _ => false

/-! ### `collections.Counter` and `most_common`

`Counter(all_tags)` is a dict from tag to occurrence count whose keys are in
first-insertion order; `most_common(limit)` sorts the items by descending
count with Python's stable sort, so ties keep first-insertion order, and
takes the first `limit`.  The stable descending sort is embedded as a stable
insertion sort. -/

/-- The keys of `Counter(l)` in dict insertion order: first occurrences,
in order of first occurrence. -/
def counterKeys (l : List String) : List String :=
  l.foldl (fun acc x => if x ∈ acc then acc else acc ++ [x]) []

/-- The items of `Counter(l)`: each key paired with its occurrence count. -/
def counterItems (l : List String) : List (String × Nat) :=
  (counterKeys l).map (fun k => (k, l.count k))

/-- Stable insertion into a list sorted by descending count: the new item
goes before the first strictly-smaller count, after equal counts. -/
def sortedInsertByCountDesc (p : String × Nat) :
    List (String × Nat) → List (String × Nat)
  | [] => [p]
  | q :: qs => if q.2 ≤ p.2 then p :: q :: qs else q :: sortedInsertByCountDesc p qs

/-- Stable sort by descending count (the behaviour of Python
`sorted(items, key=count, reverse=True)`). -/
def sortByCountDesc : List (String × Nat) → List (String × Nat)
  | [] => []
  | p :: ps => sortedInsertByCountDesc p (sortByCountDesc ps)

/-- `Counter(l).most_common(n)`. -/
def most_common (l : List String) (n : Nat) : List (String × Nat) :=
  (sortByCountDesc (counterItems l)).take n

/-! ### `get_artist_genres` -/

/-- The tag names one artist's fetch contributes to `all_tags`: lines
123-125 of the source (`[]` when the response lacks `toptags` or `tag`).
`remote` models the `artist.getTopTags` call for a given artist name. -/
def fetchedTagNames (remote : String → ArtistTopTagsResponse) (artist : String) :
    List String :=
  match (remote artist).toptags with
  | some toptags =>
    match toptags.tag with
    | some tags => tags.map TagEntry.name
    | none => []
  | none => []

/-- The source's `"toptags" in data and "tag" in data["toptags"]` test. -/
def hasTagList (data : ArtistTopTagsResponse) : Bool :=
  match data.toptags with
  | some toptags => toptags.tag.isSome
  | none => false

/-- The `all_tags` list accumulated by the loop of lines 112-125. -/
def allTags (remote : String → ArtistTopTagsResponse) (artist_names : List String) :
    List String :=
  artist_names.foldl (fun acc artist => acc ++ fetchedTagNames remote artist) []

/-- `get_artist_genres(*artist_names, limit=5)`. -/
def get_artist_genres (remote : String → ArtistTopTagsResponse)
    (artist_names : List String) (limit : Nat) :
    Except MusicError ArtistGenres :=
  if artist_names.isEmpty then
    .error (.invalidArgument "At least one artist name must be provided.")
  else
    let all_tags := allTags remote artist_names
    let top_genres := (most_common all_tags limit).map Prod.fst
    .ok { artists := artist_names, genres := top_genres }

/-- Index of the first occurrence of `a` in `l` (the "first-encountered
position"; `l.length` when absent). -/
def firstIdx (a : String) : List String → Nat
  | [] => 0
  | x :: xs => if x = a then 0 else firstIdx a xs + 1

/-! ### Lemmas about first-occurrence positions -/

theorem firstIdx_append_of_mem {a : String} {l : List String} (t : List String)
    (h : a ∈ l) : firstIdx a (l ++ t) = firstIdx a l := by
  induction l with
  | nil => cases h
  | cons x xs ih =>
    by_cases hx : x = a
    · simp [firstIdx, hx]
    · rcases List.mem_cons.mp h with h1 | h2
      · exact absurd h1.symm hx
      · simp [firstIdx, hx, ih h2]

theorem firstIdx_lt_length {a : String} {l : List String} (h : a ∈ l) :
    firstIdx a l < l.length := by
  induction l with
  | nil => cases h
  | cons x xs ih =>
    by_cases hx : x = a
    · simp [firstIdx, hx]
    · rcases List.mem_cons.mp h with h1 | h2
      · exact absurd h1.symm hx
      · simp only [firstIdx, if_neg hx, List.length_cons]
        exact Nat.succ_lt_succ (ih h2)

theorem firstIdx_append_of_not_mem {a : String} {l : List String} (t : List String)
    (h : a ∉ l) : firstIdx a (l ++ t) = l.length + firstIdx a t := by
  induction l with
  | nil => simp [firstIdx]
  | cons x xs ih =>
    have hx : ¬x = a := fun hh => h (by rw [hh]; exact List.mem_cons_self a xs)
    have h2 : a ∉ xs := fun hh => h (List.mem_cons_of_mem _ hh)
    simp only [List.cons_append, firstIdx, if_neg hx, List.length_cons, List.append_eq]
    rw [ih h2]
    omega

/-! ### Lemmas about the Counter embedding -/

theorem counterKeys_append_singleton (l : List String) (x : String) :
    counterKeys (l ++ [x]) =
      if x ∈ counterKeys l then counterKeys l else counterKeys l ++ [x] := by
  unfold counterKeys
  rw [List.foldl_append]
  rfl

theorem mem_counterKeys {a : String} {l : List String} :
    a ∈ counterKeys l ↔ a ∈ l := by
  induction l using List.reverseRecOn with
  | nil => simp [counterKeys]
  | append_singleton l x ih =>
    rw [counterKeys_append_singleton]
    by_cases hx : x ∈ counterKeys l
    · rw [if_pos hx]
      constructor
      · intro h
        exact List.mem_append.mpr (Or.inl (ih.mp h))
      · intro h
        rcases List.mem_append.mp h with h1 | h2
        · exact ih.mpr h1
        · rw [List.mem_singleton.mp h2]
          exact hx
    · rw [if_neg hx]
      simp [List.mem_append, ih]

theorem counterKeys_pairwise (l : List String) :
    (counterKeys l).Pairwise (fun a b => firstIdx a l < firstIdx b l) := by
  induction l using List.reverseRecOn with
  | nil => simp [counterKeys]
  | append_singleton l x ih =>
    rw [counterKeys_append_singleton]
    by_cases hx : x ∈ counterKeys l
    · rw [if_pos hx]
      refine (List.Pairwise.and_mem.mp ih).imp ?_
      intro a b hab
      obtain ⟨ha, hb, hlt⟩ := hab
      rw [firstIdx_append_of_mem _ (mem_counterKeys.mp ha),
          firstIdx_append_of_mem _ (mem_counterKeys.mp hb)]
      exact hlt
    · rw [if_neg hx]
      rw [List.pairwise_append]
      refine ⟨?_, List.pairwise_singleton _ _, ?_⟩
      · refine (List.Pairwise.and_mem.mp ih).imp ?_
        intro a b hab
        obtain ⟨ha, hb, hlt⟩ := hab
        rw [firstIdx_append_of_mem _ (mem_counterKeys.mp ha),
            firstIdx_append_of_mem _ (mem_counterKeys.mp hb)]
        exact hlt
      · intro a ha b hb
        rw [List.mem_singleton.mp hb]
        have hal : a ∈ l := mem_counterKeys.mp ha
        have hxl : x ∉ l := fun hh => hx (mem_counterKeys.mpr hh)
        rw [firstIdx_append_of_mem _ hal, firstIdx_append_of_not_mem _ hxl]
        have hx0 : firstIdx x [x] = 0 := by simp [firstIdx]
        rw [hx0]
        have := firstIdx_lt_length hal
        omega

theorem mem_counterItems {p : String × Nat} {l : List String}
    (h : p ∈ counterItems l) : p.1 ∈ l ∧ p.2 = l.count p.1 := by
  rcases List.mem_map.mp h with ⟨k, hk, rfl⟩
  exact ⟨mem_counterKeys.mp hk, rfl⟩

theorem counterItems_pairwise (l : List String) :
    (counterItems l).Pairwise (fun p q => firstIdx p.1 l < firstIdx q.1 l) := by
  unfold counterItems
  rw [List.pairwise_map]
  exact counterKeys_pairwise l

/-! ### Lemmas about the stable descending sort -/

/-- Ordering invariant of the stable descending sort: strictly larger count
first; ties ordered by the auxiliary relation `f` carried over from the
input order. -/
abbrev SortRel (f : String × Nat → String × Nat → Prop)
    (p q : String × Nat) : Prop :=
  q.2 < p.2 ∨ (p.2 = q.2 ∧ f p q)

theorem mem_sortedInsert {q p : String × Nat} {s : List (String × Nat)} :
    q ∈ sortedInsertByCountDesc p s ↔ q = p ∨ q ∈ s := by
  induction s with
  | nil => simp [sortedInsertByCountDesc]
  | cons r rs ih =>
    rw [sortedInsertByCountDesc]
    by_cases h : r.2 ≤ p.2
    · rw [if_pos h]
      simp [List.mem_cons]
    · rw [if_neg h]
      simp only [List.mem_cons, ih]
      tauto

theorem mem_sortByCountDesc {q : String × Nat} {s : List (String × Nat)} :
    q ∈ sortByCountDesc s ↔ q ∈ s := by
  induction s with
  | nil => simp [sortByCountDesc]
  | cons p ps ih =>
    rw [sortByCountDesc, mem_sortedInsert, ih, List.mem_cons]

theorem sortedInsert_pairwise {f : String × Nat → String × Nat → Prop}
    {x : String × Nat} {s : List (String × Nat)}
    (hs : s.Pairwise (SortRel f)) (hx : ∀ q ∈ s, f x q) :
    (sortedInsertByCountDesc x s).Pairwise (SortRel f) := by
  induction s with
  | nil => simp [sortedInsertByCountDesc]
  | cons q qs ih =>
    rw [sortedInsertByCountDesc]
    rcases List.pairwise_cons.mp hs with ⟨hq, hqs⟩
    by_cases h : q.2 ≤ x.2
    · rw [if_pos h]
      refine List.pairwise_cons.mpr ⟨?_, hs⟩
      intro y hy
      have hyx : y.2 ≤ x.2 := by
        rcases List.mem_cons.mp hy with rfl | hy2
        · exact h
        · rcases hq y hy2 with h1 | ⟨h1, _⟩ <;> omega
      rcases lt_or_eq_of_le hyx with h1 | h1
      · exact Or.inl h1
      · exact Or.inr ⟨h1.symm, hx y hy⟩
    · rw [if_neg h]
      refine List.pairwise_cons.mpr
        ⟨?_, ih hqs (fun r hr => hx r (List.mem_cons_of_mem _ hr))⟩
      intro y hy
      rcases mem_sortedInsert.mp hy with rfl | hy2
      · exact Or.inl (Nat.lt_of_not_le h)
      · exact hq y hy2

theorem sortByCountDesc_pairwise {f : String × Nat → String × Nat → Prop}
    {s : List (String × Nat)} (hs : s.Pairwise f) :
    (sortByCountDesc s).Pairwise (SortRel f) := by
  induction s with
  | nil => simp [sortByCountDesc]
  | cons p ps ih =>
    rcases List.pairwise_cons.mp hs with ⟨hp, hps⟩
    rw [sortByCountDesc]
    exact sortedInsert_pairwise (ih hps) (fun q hq => hp q (mem_sortByCountDesc.mp hq))

/-! ### Lemmas about `all_tags` -/

theorem allTags_foldl (remote : String → ArtistTopTagsResponse)
    (names : List String) (init : List String) :
    names.foldl (fun acc artist => acc ++ fetchedTagNames remote artist) init
      = init ++ allTags remote names := by
  induction names generalizing init with
  | nil =>
    unfold allTags
    simp
  | cons a as ih =>
    unfold allTags
    rw [List.foldl_cons, List.foldl_cons, ih, ih]
    simp

theorem allTags_cons (remote : String → ArtistTopTagsResponse)
    (a : String) (as : List String) :
    allTags remote (a :: as) = fetchedTagNames remote a ++ allTags remote as := by
  have h : allTags remote (a :: as)
      = List.foldl (fun acc artist => acc ++ fetchedTagNames remote artist)
          ([] ++ fetchedTagNames remote a) as := rfl
  rw [h, allTags_foldl]
  simp

theorem allTags_append (remote : String → ArtistTopTagsResponse)
    (l1 l2 : List String) :
    allTags remote (l1 ++ l2) = allTags remote l1 ++ allTags remote l2 := by
  induction l1 with
  | nil => simp [allTags]
  | cons a as ih =>
    rw [List.cons_append, allTags_cons, allTags_cons, ih, List.append_assoc]

theorem mem_allTags {remote : String → ArtistTopTagsResponse} {g : String}
    {names : List String} :
    g ∈ allTags remote names ↔ ∃ a ∈ names, g ∈ fetchedTagNames remote a := by
  induction names with
  | nil => simp [allTags]
  | cons a as ih =>
    rw [allTags_cons, List.mem_append, ih]
    constructor
    · intro h
      rcases h with h | ⟨x, hx, hg⟩
      · exact ⟨a, List.mem_cons_self a as, h⟩
      · exact ⟨x, List.mem_cons_of_mem _ hx, hg⟩
    · intro h
      rcases h with ⟨x, hx, hg⟩
      rcases List.mem_cons.mp hx with rfl | hx2
      · exact Or.inl hg
      · exact Or.inr ⟨x, hx2, hg⟩

theorem fetchedTagNames_of_not_hasTagList
    {remote : String → ArtistTopTagsResponse} {a : String}
    (h : hasTagList (remote a) = false) : fetchedTagNames remote a = [] := by
  unfold hasTagList at h
  unfold fetchedTagNames
  rcases hma : (remote a).toptags with _ | ⟨_ | tags⟩
  · rfl
  · rfl
  · rw [hma] at h
    simp at h

/-! ### The ranking produced by `most_common` -/

/-- The ranking the spec asserts for aggregated genres over the tag pool `l`:
strictly more occurrences first; equal occurrence counts ordered by
first-encountered position. -/
abbrev RankedBy (l : List String) (a b : String) : Prop :=
  l.count b < l.count a ∨ (l.count a = l.count b ∧ firstIdx a l < firstIdx b l)

theorem most_common_fst_ranked (l : List String) (n : Nat) :
    ((most_common l n).map Prod.fst).Pairwise (RankedBy l) := by
  have h1 : (sortByCountDesc (counterItems l)).Pairwise
      (SortRel (fun p q => firstIdx p.1 l < firstIdx q.1 l)) :=
    sortByCountDesc_pairwise (counterItems_pairwise l)
  have h2 : (sortByCountDesc (counterItems l)).Pairwise
      (fun p q => RankedBy l p.1 q.1) := by
    refine (List.Pairwise.and_mem.mp h1).imp ?_
    intro p q hpq
    obtain ⟨hp, hq, hrel⟩ := hpq
    have hp2 := (mem_counterItems (mem_sortByCountDesc.mp hp)).2
    have hq2 := (mem_counterItems (mem_sortByCountDesc.mp hq)).2
    rcases hrel with h | ⟨h, hf⟩
    · exact Or.inl (by rw [← hp2, ← hq2]; exact h)
    · exact Or.inr ⟨by rw [← hp2, ← hq2]; exact h, hf⟩
  have h3 : (most_common l n).Pairwise (fun p q => RankedBy l p.1 q.1) :=
    List.Pairwise.sublist (List.take_sublist n _) h2
  rw [List.pairwise_map]
  exact h3

theorem mem_most_common_fst {a : String} {l : List String} {n : Nat}
    (h : a ∈ (most_common l n).map Prod.fst) : a ∈ l := by
  rcases List.mem_map.mp h with ⟨p, hp, rfl⟩
  exact (mem_counterItems (mem_sortByCountDesc.mp (List.mem_of_mem_take hp))).1

/-- Unfolding of `get_track_genres` on a non-empty artist list. -/
theorem get_track_genres_cons (remote : LastfmTrackParams → TrackInfoResponse)
    (api_key track_name a : String) (rest : List String) (limit : Nat) :
    get_track_genres remote api_key track_name (a :: rest) limit =
      match (remote (track_info_params api_key track_name a)).track with
      | none => .ok (.notFound "Track not found" [])
      | some track =>
          .ok (.found track.name a
            (((trackTags track).take limit).map TagEntry.name)) := rfl

/-! ### Concrete oracles for witnesses and examples -/

/-- Remote oracle realising the spec's worked aggregation example:
Artist1 has tags [rock, pop, rock], Artist2 has [pop, jazz], anyone else
gets a response without a `toptags` field. -/
def exRemote : String → ArtistTopTagsResponse := fun a =>
  if a = "Artist1" then ⟨some ⟨some [⟨"rock"⟩, ⟨"pop"⟩, ⟨"rock"⟩]⟩⟩
  else if a = "Artist2" then ⟨some ⟨some [⟨"pop"⟩, ⟨"jazz"⟩]⟩⟩
  else ⟨none⟩

/-- Track oracle whose response always lacks the `track` field
(the not-found shape). -/
def cRemoteNF : LastfmTrackParams → TrackInfoResponse := fun _ => ⟨none⟩

/-- Track oracle returning a fixed track named `Echoes` with two tags. -/
def cTrackRemote : LastfmTrackParams → TrackInfoResponse :=
  fun _ => ⟨some ⟨"Echoes", some ⟨some [⟨"prog"⟩, ⟨"psych"⟩]⟩⟩⟩

/-- Spotify oracle returning a fixed track/album record. -/
def cSpotify : String → SpotifyTrack :=
  fun _ => ⟨"Song A", ⟨"album", "Album A", "2001-01-01"⟩⟩

/-! ### The claims -/

/-- Claim C1: for every non-empty artist sequence and positive limit,
`get_artist_genres` returns a genres sequence of length at most `limit`,
each of whose tags occurs in the union of the per-artist fetched tag
lists. -/
theorem aggregate_genres_bounded_and_from_fetches
    (remote : String → ArtistTopTagsResponse) (artist_names : List String)
    (limit : Nat) (hne : artist_names ≠ []) (_hpos : 0 < limit) :
    ∃ r, get_artist_genres remote artist_names limit = .ok r ∧
      r.genres.length ≤ limit ∧
      ∀ g ∈ r.genres, ∃ a ∈ artist_names, g ∈ fetchedTagNames remote a := by
  refine ⟨{ artists := artist_names,
            genres := (most_common (allTags remote artist_names) limit).map
              Prod.fst }, ?_, ?_, ?_⟩
  · unfold get_artist_genres
    rw [if_neg (by simp [List.isEmpty_iff, hne])]
  · simp only [List.length_map]
    exact List.length_take_le _ _
  · intro g hg
    exact mem_allTags.mp (mem_most_common_fst hg)

/-- Witness for C1 at a concrete input: the spec's two-artist example with
limit 2. -/
theorem aggregate_genres_bounded_and_from_fetches_witness :
    (["Artist1", "Artist2"] ≠ ([] : List String)) ∧ 0 < 2 ∧
    ∃ r, get_artist_genres exRemote ["Artist1", "Artist2"] 2 = .ok r ∧
      r.genres.length ≤ 2 ∧
      ∀ g ∈ r.genres, ∃ a ∈ ["Artist1", "Artist2"], g ∈ fetchedTagNames exRemote a :=
  ⟨List.cons_ne_nil _ _, by decide,
    aggregate_genres_bounded_and_from_fetches exRemote ["Artist1", "Artist2"] 2
      (List.cons_ne_nil _ _) (by decide)⟩

/-- Claim C2: in `get_artist_genres` tags are ranked by descending
occurrence count over all artists' tag lists, ties ordered by
first-encountered position across the artist iteration; in particular the
spec's example (Artist1 tags [rock, pop, rock], Artist2 tags [pop, jazz],
limit 2) yields ["rock", "pop"]. -/
theorem aggregate_ranking_and_example :
    (∀ (remote : String → ArtistTopTagsResponse) (artist_names : List String)
      (limit : Nat) (r : ArtistGenres),
      get_artist_genres remote artist_names limit = .ok r →
      r.genres.Pairwise (RankedBy (allTags remote artist_names))) ∧
    get_artist_genres exRemote ["Artist1", "Artist2"] 2 =
      .ok { artists := ["Artist1", "Artist2"], genres := ["rock", "pop"] } := by
  constructor
  · intro remote artist_names limit r h
    unfold get_artist_genres at h
    split at h
    · cases h
    · injection h with h2
      rw [← h2]
      exact most_common_fst_ranked _ _
  · rfl

/-- Claim C3: when the remote response lacks the `track` field,
`get_track_genres` returns the not-found marker with an empty genre list
instead of raising. -/
theorem track_not_found_returns_marker
    (remote : LastfmTrackParams → TrackInfoResponse)
    (api_key track_name a : String) (rest : List String) (limit : Nat)
    (h : (remote (track_info_params api_key track_name a)).track = none) :
    get_track_genres remote api_key track_name (a :: rest) limit =
      .ok (.notFound "Track not found" []) := by
  rw [get_track_genres_cons, h]

/-- Witness for C3 at a concrete input. -/
theorem track_not_found_returns_marker_witness :
    (cRemoteNF (track_info_params "k" "Song" "Artist")).track = none ∧
    get_track_genres cRemoteNF "k" "Song" ["Artist"] 5 =
      .ok (.notFound "Track not found" []) :=
  ⟨rfl, track_not_found_returns_marker cRemoteNF "k" "Song" "Artist" [] 5 rfl⟩

/-- Claim C4, counterexample: calling `get_track_genres` with the single
artist name `""` does not raise InvalidArgument — the empty tuple check
`if not artists` passes because one (empty-string) artist was supplied, and
the call returns a normal result. -/
theorem empty_string_artist_not_invalid_argument :
    isInvalidArgument (get_track_genres cRemoteNF "k" "Song" [""] 5) = false ∧
    get_track_genres cRemoteNF "k" "Song" [""] 5 =
      .ok (.notFound "Track not found" []) :=
  ⟨rfl, rfl⟩

/-- Claim C4, amended: `get_track_genres` fails with InvalidArgument
exactly when the artist sequence is empty; an empty-string artist name is
accepted and the lookup proceeds, returning a shaped result. -/
theorem invalid_argument_only_for_no_artists
    (remote : LastfmTrackParams → TrackInfoResponse)
    (api_key track_name : String) (rest : List String) (limit : Nat) :
    get_track_genres remote api_key track_name [] limit =
      .error (.invalidArgument "At least one artist name must be provided.") ∧
    ∃ result, get_track_genres remote api_key track_name ("" :: rest) limit =
      .ok result := by
  refine ⟨rfl, ?_⟩
  rw [get_track_genres_cons]
  cases h : (remote (track_info_params api_key track_name "")).track with
  | none => exact ⟨_, rfl⟩
  | some track => exact ⟨_, rfl⟩

/-- Claim C5: a successful `get_track_genres` returns exactly the first
`limit` entries of the remote-provided tag list in remote order, with the
track name echoed by the remote and the artist name as supplied. -/
theorem track_lookup_success_shape
    (remote : LastfmTrackParams → TrackInfoResponse)
    (api_key track_name a : String) (rest : List String) (limit : Nat)
    (track : TrackPayload)
    (h : (remote (track_info_params api_key track_name a)).track = some track) :
    get_track_genres remote api_key track_name (a :: rest) limit =
      .ok (.found track.name a (((trackTags track).take limit).map TagEntry.name)) := by
  rw [get_track_genres_cons, h]

/-- Witness for C5: limit 5 with a track carrying only two tags returns
exactly those two tags, no padding. -/
theorem track_lookup_success_shape_witness :
    (cTrackRemote (track_info_params "k" "Echoes" "PF")).track =
      some ⟨"Echoes", some ⟨some [⟨"prog"⟩, ⟨"psych"⟩]⟩⟩ ∧
    get_track_genres cTrackRemote "k" "Echoes" ["PF"] 5 =
      .ok (.found "Echoes" "PF" ["prog", "psych"]) :=
  ⟨rfl, track_lookup_success_shape cTrackRemote "k" "Echoes" "PF" [] 5
    ⟨"Echoes", some ⟨some [⟨"prog"⟩, ⟨"psych"⟩]⟩⟩ rfl⟩

/-- Claim C6: an artist whose response lacks a tag list contributes zero
tags — the aggregation completes normally and its genres equal those
computed from the remaining artists' tags alone. -/
theorem missing_tag_list_contributes_nothing
    (remote : String → ArtistTopTagsResponse) (pre post : List String)
    (a : String) (limit : Nat) (h : hasTagList (remote a) = false) :
    fetchedTagNames remote a = [] ∧
    ∃ r, get_artist_genres remote (pre ++ a :: post) limit = .ok r ∧
      r.artists = pre ++ a :: post ∧
      r.genres = (most_common (allTags remote (pre ++ post)) limit).map Prod.fst := by
  have hf := fetchedTagNames_of_not_hasTagList h
  have htags : allTags remote (pre ++ a :: post) = allTags remote (pre ++ post) := by
    rw [allTags_append, allTags_cons, hf, allTags_append]
    simp
  refine ⟨hf, ⟨{ artists := pre ++ a :: post,
                 genres := (most_common (allTags remote (pre ++ a :: post)) limit).map
                   Prod.fst }, ?_, rfl, ?_⟩⟩
  · unfold get_artist_genres
    rw [if_neg (by simp [List.isEmpty_iff])]
  · rw [htags]

/-- Witness for C6: the artist `Nobody` gets a response without `toptags`,
so aggregating over [Artist1, Nobody, Artist2] matches aggregating over
[Artist1, Artist2]. -/
theorem missing_tag_list_contributes_nothing_witness :
    hasTagList (exRemote "Nobody") = false ∧
    (fetchedTagNames exRemote "Nobody" = [] ∧
     ∃ r, get_artist_genres exRemote (["Artist1"] ++ "Nobody" :: ["Artist2"]) 2 = .ok r ∧
       r.artists = ["Artist1"] ++ "Nobody" :: ["Artist2"] ∧
       r.genres = (most_common (allTags exRemote (["Artist1"] ++ ["Artist2"])) 2).map
         Prod.fst) :=
  ⟨rfl, missing_tag_list_contributes_nothing exRemote ["Artist1"] ["Artist2"]
    "Nobody" 2 rfl⟩

/-- Claim C7: `get_artist_genres` with an empty artist sequence fails with
InvalidArgument. -/
theorem aggregate_empty_invalid_argument
    (remote : String → ArtistTopTagsResponse) (limit : Nat) :
    get_artist_genres remote [] limit =
      .error (.invalidArgument "At least one artist name must be provided.") := rfl

/-- Claim C8: `get_album_info` with an empty track id fails with
InvalidArgument. -/
theorem album_info_empty_id_invalid_argument (sp_track : String → SpotifyTrack) :
    get_album_info sp_track "" =
      .error (.invalidArgument "A valid Spotify track ID must be provided.") := by
  unfold get_album_info
  rw [if_pos rfl]

/-- Claim C9: every successful `get_album_info` returns exactly the track's
own name and the nested album's type, name and release date. -/
theorem album_info_success_fields (sp_track : String → SpotifyTrack)
    (track_id : String) (r : AlbumInfo)
    (h : get_album_info sp_track track_id = .ok r) :
    r = { track_name := (sp_track track_id).name,
          album_type := (sp_track track_id).album.album_type,
          album_name := (sp_track track_id).album.name,
          release_date := (sp_track track_id).album.release_date } := by
  unfold get_album_info at h
  split at h
  · cases h
  · injection h with h2
    exact h2.symm

/-- Witness for C9 at a concrete input. -/
theorem album_info_success_fields_witness :
    get_album_info cSpotify "id1" =
      .ok ⟨"Song A", "album", "Album A", "2001-01-01"⟩ ∧
    (⟨"Song A", "album", "Album A", "2001-01-01"⟩ : AlbumInfo) =
      { track_name := (cSpotify "id1").name,
        album_type := (cSpotify "id1").album.album_type,
        album_name := (cSpotify "id1").album.name,
        release_date := (cSpotify "id1").album.release_date } :=
  ⟨rfl, album_info_success_fields cSpotify "id1" _ rfl⟩

/-- Claim C10: `get_track_genres` depends only on the track name, the first
artist and the limit — both the `track.getInfo` query issued and the result
are identical for any two calls differing only in the artists after the
first. -/
theorem track_lookup_ignores_extra_artists
    (remote : LastfmTrackParams → TrackInfoResponse)
    (api_key track_name a : String) (rest1 rest2 : List String) (limit : Nat) :
    track_query api_key track_name (a :: rest1) =
      track_query api_key track_name (a :: rest2) ∧
    get_track_genres remote api_key track_name (a :: rest1) limit =
      get_track_genres remote api_key track_name (a :: rest2) limit :=
  ⟨rfl, rfl⟩

end MusicInfo
